import Mathlib

/-!
Formal model of `src/frontend/crop_thumb.py` (repository Gradus-India/GRADUS).

The script opens a PNG, computes a crop box
  `left = width * 0.45; top = 0; right = width; bottom = height`
(line 16-19), calls `img.crop((left, top, right, bottom))` (line 21), saves the
result (line 24), and wraps everything in a `try/except Exception` that prints
either a success or an error message (lines 7-28).

Modelling notes, all taken from the executed code, not from the spec:

* `width * 0.45` is evaluated in Python's IEEE-754 double precision.  The
  double nearest to the literal 0.45 is exactly `8106479329266893 / 2^54`, and
  the product rounds the exact rational `width * 8106479329266893 / 2^54` to
  53 significant bits, ties to even.  `roundSig53` below performs exactly that
  rounding on the numerator (the model ignores overflow, which would need a
  width of at least 2^1025, far beyond any decodable image).
* Pillow's `Image.crop(box)` first raises `ValueError` when `box[2] < box[0]`
  or `box[3] < box[1]` (comparing the unrounded floats), then in `_crop` maps
  the four coordinates through Python's `round` (nearest integer, ties to
  even) and produces an image of size `(x1 - x0, y1 - y0)` whose pixel `(x, y)`
  is the source pixel `(x0 + x, y0 + y)` (0 outside the source bounds).
* The file-system effects (open / save / print / process exit) are modelled by
  an explicit state `FS` and a `runScript` function: `Image.open` fails iff no
  decodable image sits at the source path, `save` fails iff the destination is
  not writable, the `except Exception` clause converts any failure into one
  printed message, and the interpreter then exits normally (status 0) because
  the failure is not re-raised.
-/

/-- Significand (scaled by `2 ^ 54`) of the IEEE-754 double nearest to the
Python literal `0.45`: the float `0.45` is exactly `8106479329266893 / 2 ^ 54`. -/
def K45 : ℕ := 8106479329266893

/-- Round the dyadic value `m / 2 ^ 54` to 53 significant bits, ties to even:
IEEE-754 double rounding of the exact product, expressed on the numerator.
Values with numerator below `2 ^ 53` are exactly representable. -/
def roundSig53 (m : ℕ) : ℕ :=
  if m < 2 ^ 53 then m
  else
    (if 2 ^ (Nat.log2 m - 53) < m % 2 ^ (Nat.log2 m - 52) then m / 2 ^ (Nat.log2 m - 52) + 1
     else if m % 2 ^ (Nat.log2 m - 52) < 2 ^ (Nat.log2 m - 53) then m / 2 ^ (Nat.log2 m - 52)
     else if (m / 2 ^ (Nat.log2 m - 52)) % 2 = 0 then m / 2 ^ (Nat.log2 m - 52)
     else m / 2 ^ (Nat.log2 m - 52) + 1) * 2 ^ (Nat.log2 m - 52)

/-- Line 16 of crop_thumb.py, `left = width * 0.45`: the exact value of the
Python double product `width * 0.45`. -/
def leftFloat (W : ℕ) : ℚ := (roundSig53 (W * K45) : ℚ) / 2 ^ 54

/-- Python's builtin `round` with no second argument: nearest integer, ties to
even.  Pillow's `_crop` applies it to each box coordinate. -/
def pyRound (x : ℚ) : ℤ :=
  if x - ⌊x⌋ < 1 / 2 then ⌊x⌋
  else if 1 / 2 < x - ⌊x⌋ then ⌊x⌋ + 1
  else if ⌊x⌋ % 2 = 0 then ⌊x⌋ else ⌊x⌋ + 1

/-- A decoded raster image: width, height, and the pixel value at each
coordinate (the value outside the `width × height` grid is irrelevant). -/
structure Img where
  width : ℕ
  height : ℕ
  pix : ℕ → ℕ → ℕ

/-- The failure conditions the script can hit, all caught by the one
`except Exception` clause: `Image.open` failing (missing or undecodable
source), `Image.crop` raising `ValueError`, `save` failing (destination
missing or unwritable). -/
inductive PyError where
  | fileNotFound : PyError
  | valueError : PyError
  | saveError : PyError
deriving DecidableEq

/-- Pixel of `img` at integer coordinates, 0 outside the bounds (Pillow's
`ImagingCrop` fills the part of the crop box outside the source with zeros). -/
def pixAt (img : Img) (i j : ℤ) : ℕ :=
  if 0 ≤ i ∧ i < img.width ∧ 0 ≤ j ∧ j < img.height then
    img.pix i.toNat j.toNat
  else 0

/-- Pillow's `Image.crop((left, top, right, bottom))`: raises `ValueError` when
`right < left` or `bottom < top` (on the unrounded floats), otherwise rounds
each coordinate with Python's `round` and returns the image of size
`(x1 - x0, y1 - y0)` whose pixel `(x, y)` is the source pixel
`(x0 + x, y0 + y)`. -/
def crop (img : Img) (left top rightB bottom : ℚ) : Except PyError Img :=
  if rightB < left then Except.error PyError.valueError
  else if bottom < top then Except.error PyError.valueError
  else
    Except.ok
      { width := (pyRound rightB - pyRound left).toNat
        height := (pyRound bottom - pyRound top).toNat
        pix := fun x y => pixAt img (pyRound left + (x : ℤ)) (pyRound top + (y : ℤ)) }

/-- Lines 16-19 of crop_thumb.py: the crop rectangle
`(left, top, right, bottom) = (width * 0.45, 0, width, height)`. -/
def scriptBox (width height : ℕ) : ℚ × ℚ × ℚ × ℚ :=
  (leftFloat width, 0, (width : ℚ), (height : ℚ))

/-- Line 21 of crop_thumb.py: `cropped_img = img.crop((left, top, right, bottom))`. -/
def cropThumb (img : Img) : Except PyError Img :=
  crop img (scriptBox img.width img.height).1 (scriptBox img.width img.height).2.1
    (scriptBox img.width img.height).2.2.1 (scriptBox img.width img.height).2.2.2

/-- Width of the image the script produces from `img`, if any. -/
def thumbWidth (img : Img) : Option ℕ :=
  match cropThumb img with
  | Except.ok c => some c.width
  | Except.error _ => none

/-- Height of the image the script produces from `img`, if any. -/
def thumbHeight (img : Img) : Option ℕ :=
  match cropThumb img with
  | Except.ok c => some c.height
  | Except.error _ => none

/-- Pixel `(x, y)` of the image the script produces from `img`, if any. -/
def thumbPix (img : Img) (x y : ℕ) : Option ℕ :=
  match cropThumb img with
  | Except.ok c => some (c.pix x y)
  | Except.error _ => none

/-- Line 4 of crop_thumb.py: the hard-coded source path. -/
def image_path : String :=
  "d:/GRADUS Project/GRADUS/frontend/public/assets/images/thumbs/why-gradus-thumbnail.png"

/-- Line 5 of crop_thumb.py: the hard-coded destination path. -/
def output_path : String :=
  "d:/GRADUS Project/GRADUS/frontend/public/assets/images/thumbs/why-gradus-thumbnail-cropped.png"

/-- The file-system state the script touches: the decodable image at the
source path (`none` when the source is missing or unreadable), whether the
destination path can be written (parent directory exists and is writable),
and the bytes currently stored at the destination path. -/
structure FS where
  src : Option Img
  dstWritable : Bool
  dst : Option (List ℕ)

/-- A message printed by the script: line 25 on success, line 28 on failure
(the failure message embeds the exception). -/
inductive Msg where
  | success : String → Msg
  | failure : PyError → Msg
deriving DecidableEq

/-- Body of the `try` block (lines 8-25): open the source, crop, encode and
save.  Returns the updated file system and either success or the first
exception raised.  `encode` is the (deterministic) PNG encoder used by
`save`. -/
def tryBody (encode : Img → List ℕ) (fs : FS) : FS × Except PyError Unit :=
  match fs.src with
  | none => (fs, Except.error PyError.fileNotFound)
  | some img =>
    match cropThumb img with
    | Except.error e => (fs, Except.error e)
    | Except.ok cropped =>
      if fs.dstWritable then ({ fs with dst := some (encode cropped) }, Except.ok ())
      else (fs, Except.error PyError.saveError)

/-- Result of one process invocation: final file-system state, the messages
printed, and the process exit status. -/
structure RunResult where
  fs : FS
  printed : List Msg
  exitCode : ℕ

/-- One invocation of crop_thumb.py (lines 7-28): run the `try` body; on
success the script printed the success message, on failure the
`except Exception` clause prints the error message and does not re-raise, so
in both cases the interpreter exits with status 0. -/
def runScript (encode : Img → List ℕ) (fs : FS) : RunResult :=
  match tryBody encode fs with
  | (fs', Except.ok _) => ⟨fs', [Msg.success output_path], 0⟩
  | (fs', Except.error e) => ⟨fs', [Msg.failure e], 0⟩

/-- The image `img.crop((width * 0.45, 0, width, height))` returns: width
`W - round(W * 0.45)` (Python rounding of the double product), full height,
pixels shifted right by the rounded left boundary. -/
def cropOut (img : Img) : Img :=
  { width := ((img.width : ℤ) - pyRound (leftFloat img.width)).toNat
    height := img.height
    pix := fun x y => pixAt img (pyRound (leftFloat img.width) + (x : ℤ)) (y : ℤ) }

/-- A trivial deterministic encoder, used only to instantiate witnesses. -/
def encZero : Img → List ℕ := fun _ => []

/-- Test image whose pixel value at `(x, y)` is the column index `x`. -/
def imgCols (W H : ℕ) : Img := ⟨W, H, fun x _ => x⟩

lemma le_log2_of_pow_le {k m : ℕ} (h : 2 ^ k ≤ m) : k ≤ Nat.log2 m := by
  by_contra hlt
  push_neg at hlt
  have h1 : m < 2 ^ (Nat.log2 m + 1) := Nat.lt_log2_self
  have h2 : 2 ^ (Nat.log2 m + 1) ≤ 2 ^ k := Nat.pow_le_pow_right (by norm_num) (by omega)
  omega

lemma roundSig53_le (m : ℕ) : roundSig53 m ≤ m + 2 ^ (Nat.log2 m - 52) := by
  unfold roundSig53
  split
  · exact Nat.le_add_right m _
  · have hdm : m / 2 ^ (Nat.log2 m - 52) * 2 ^ (Nat.log2 m - 52) ≤ m :=
      Nat.div_mul_le_self m _
    have key : ∀ a : ℕ, a ≤ m / 2 ^ (Nat.log2 m - 52) + 1 →
        a * 2 ^ (Nat.log2 m - 52) ≤ m + 2 ^ (Nat.log2 m - 52) := by
      intro a ha
      have h2 := mul_le_mul_right' ha (2 ^ (Nat.log2 m - 52))
      rw [add_mul, one_mul] at h2
      omega
    split_ifs <;> exact key _ (by omega)

lemma leftFloat_nonneg (W : ℕ) : 0 ≤ leftFloat W := by
  unfold leftFloat
  positivity

lemma roundSig53_lt (W : ℕ) (hW : 0 < W) : roundSig53 (W * K45) < W * 2 ^ 54 := by
  set m := W * K45 with hm
  have hK : K45 < 2 ^ 54 := by norm_num [K45]
  by_cases h53 : m < 2 ^ 53
  · have hr : roundSig53 m = m := by unfold roundSig53; rw [if_pos h53]
    rw [hr, hm]
    exact mul_lt_mul_of_pos_left hK hW
  · push_neg at h53
    have hmz : m ≠ 0 := by
      have : (0 : ℕ) < 2 ^ 53 := by norm_num
      omega
    have hlog : 53 ≤ Nat.log2 m := le_log2_of_pow_le h53
    have hs52 : 2 ^ (Nat.log2 m - 52) * 2 ^ 52 ≤ m := by
      rw [← pow_add]
      have he : Nat.log2 m - 52 + 52 = Nat.log2 m := by omega
      rw [he]
      exact Nat.log2_self_le hmz
    have h1 : roundSig53 m ≤ m + 2 ^ (Nat.log2 m - 52) := roundSig53_le m
    have h2 : roundSig53 m * 2 ^ 52 ≤ m * (2 ^ 52 + 1) := by
      calc roundSig53 m * 2 ^ 52 ≤ (m + 2 ^ (Nat.log2 m - 52)) * 2 ^ 52 :=
            mul_le_mul_right' h1 _
        _ = m * 2 ^ 52 + 2 ^ (Nat.log2 m - 52) * 2 ^ 52 := by ring
        _ ≤ m * 2 ^ 52 + m := by omega
        _ = m * (2 ^ 52 + 1) := by ring
    have h3 : m * (2 ^ 52 + 1) < W * 2 ^ 54 * 2 ^ 52 := by
      rw [hm]
      have hKK : K45 * (2 ^ 52 + 1) < 2 ^ 54 * 2 ^ 52 := by norm_num [K45]
      calc W * K45 * (2 ^ 52 + 1) = W * (K45 * (2 ^ 52 + 1)) := by ring
        _ < W * (2 ^ 54 * 2 ^ 52) := mul_lt_mul_of_pos_left hKK hW
        _ = W * 2 ^ 54 * 2 ^ 52 := by ring
    exact lt_of_mul_lt_mul_right (lt_of_le_of_lt h2 h3) (Nat.zero_le _)

lemma leftFloat_lt (W : ℕ) (hW : 0 < W) : leftFloat W < W := by
  unfold leftFloat
  rw [div_lt_iff₀ (by positivity)]
  have h := roundSig53_lt W hW
  calc (roundSig53 (W * K45) : ℚ) < ((W * 2 ^ 54 : ℕ) : ℚ) := by exact_mod_cast h
    _ = (W : ℚ) * 2 ^ 54 := by push_cast; ring

lemma leftFloat_le (W : ℕ) : leftFloat W ≤ W := by
  rcases Nat.eq_zero_or_pos W with h | h
  · subst h
    unfold leftFloat
    norm_num [roundSig53]
  · exact (leftFloat_lt W h).le

lemma pyRound_intCast (n : ℤ) : pyRound (n : ℚ) = n := by
  unfold pyRound
  rw [Int.floor_intCast]
  norm_num

lemma pyRound_natCast (n : ℕ) : pyRound (n : ℚ) = n := by
  have h := pyRound_intCast (n : ℤ)
  push_cast at h
  exact h

lemma pyRound_zero : pyRound 0 = 0 := by
  have h := pyRound_intCast 0
  norm_num at h
  exact h

lemma pyRound_nonneg (x : ℚ) (hx : 0 ≤ x) : 0 ≤ pyRound x := by
  have h : 0 ≤ ⌊x⌋ := Int.floor_nonneg.2 hx
  unfold pyRound
  split_ifs <;> omega

lemma pyRound_le (x : ℚ) (n : ℤ) (h : x < n) : pyRound x ≤ n := by
  have hf : ⌊x⌋ < n := Int.floor_lt.2 h
  unfold pyRound
  split_ifs <;> omega

lemma cropThumb_eq (img : Img) :
    cropThumb img = Except.ok
      { width := ((img.width : ℤ) - pyRound (leftFloat img.width)).toNat
        height := img.height
        pix := fun x y => pixAt img (pyRound (leftFloat img.width) + (x : ℤ)) (y : ℤ) } := by
  simp only [cropThumb, crop, scriptBox]
  rw [if_neg (not_lt.2 (leftFloat_le img.width)),
    if_neg (not_lt.2 (Nat.cast_nonneg img.height))]
  rw [pyRound_zero, pyRound_natCast, pyRound_natCast]
  simp

lemma thumbWidth_eq (img : Img) :
    thumbWidth img = some ((img.width : ℤ) - pyRound (leftFloat img.width)).toNat := by
  unfold thumbWidth
  rw [cropThumb_eq]

lemma thumbHeight_eq (img : Img) : thumbHeight img = some img.height := by
  unfold thumbHeight
  rw [cropThumb_eq]

lemma thumbPix_eq (img : Img) (x y : ℕ) :
    thumbPix img x y =
      some (pixAt img (pyRound (leftFloat img.width) + (x : ℤ)) (y : ℤ)) := by
  unfold thumbPix
  rw [cropThumb_eq]

lemma pixAt_mk (W H : ℕ) (pix : ℕ → ℕ → ℕ) (i j : ℤ) :
    pixAt { width := W, height := H, pix := pix } i j =
      if 0 ≤ i ∧ i < (W : ℤ) ∧ 0 ≤ j ∧ j < (H : ℤ) then pix i.toNat j.toNat else 0 :=
  rfl

lemma cropThumb_ok (img : Img) : cropThumb img = Except.ok (cropOut img) := by
  rw [cropThumb_eq]
  rfl

lemma runScript_eq (encode : Img → List ℕ) (fs : FS) :
    runScript encode fs =
      match fs.src with
      | none => ⟨fs, [Msg.failure PyError.fileNotFound], 0⟩
      | some img =>
        if fs.dstWritable then
          ⟨{ fs with dst := some (encode (cropOut img)) }, [Msg.success output_path], 0⟩
        else ⟨fs, [Msg.failure PyError.saveError], 0⟩ := by
  unfold runScript tryBody
  rcases hs : fs.src with _ | img
  · simp
  · by_cases hw : fs.dstWritable <;> simp [hw, cropThumb_ok]

lemma log2_eq_of {m k : ℕ} (h1 : 2 ^ k ≤ m) (h2 : m < 2 ^ (k + 1)) : Nat.log2 m = k := by
  have hk : k ≤ Nat.log2 m := le_log2_of_pow_le h1
  have hmz : m ≠ 0 := by
    have hp : (0 : ℕ) < 2 ^ k := by positivity
    omega
  have h3 : 2 ^ Nat.log2 m ≤ m := Nat.log2_self_le hmz
  by_contra hne
  have hk1 : k + 1 ≤ Nat.log2 m := by omega
  have hle : 2 ^ (k + 1) ≤ 2 ^ Nat.log2 m := Nat.pow_le_pow_right (by norm_num) hk1
  omega

lemma roundSig53_eval {m k R : ℕ} (h53 : ¬ m < 2 ^ 53) (hk : Nat.log2 m = k)
    (hR : (if 2 ^ (k - 53) < m % 2 ^ (k - 52) then m / 2 ^ (k - 52) + 1
        else if m % 2 ^ (k - 52) < 2 ^ (k - 53) then m / 2 ^ (k - 52)
        else if (m / 2 ^ (k - 52)) % 2 = 0 then m / 2 ^ (k - 52)
        else m / 2 ^ (k - 52) + 1) * 2 ^ (k - 52) = R) :
    roundSig53 m = R := by
  unfold roundSig53
  rw [if_neg h53, hk]
  exact hR

lemma leftFloat_10 : leftFloat 10 = 9 / 2 := by
  unfold leftFloat
  have hm : (10 * K45 : ℕ) = 81064793292668930 := by norm_num [K45]
  rw [hm, roundSig53_eval (m := 81064793292668930) (k := 56) (R := 81064793292668928)
    (by norm_num) (log2_eq_of (by norm_num) (by norm_num)) (by decide)]
  norm_num

lemma leftFloat_30 : leftFloat 30 = 27 / 2 := by
  unfold leftFloat
  have hm : (30 * K45 : ℕ) = 243194379878006790 := by norm_num [K45]
  rw [hm, roundSig53_eval (m := 243194379878006790) (k := 57) (R := 243194379878006784)
    (by norm_num) (log2_eq_of (by norm_num) (by norm_num)) (by decide)]
  norm_num

lemma leftFloat_1000 : leftFloat 1000 = 450 := by
  unfold leftFloat
  have hm : (1000 * K45 : ℕ) = 8106479329266893000 := by norm_num [K45]
  rw [hm, roundSig53_eval (m := 8106479329266893000) (k := 62) (R := 8106479329266892800)
    (by norm_num) (log2_eq_of (by norm_num) (by norm_num)) (by decide)]
  norm_num

lemma floor_9_half : ⌊(9 / 2 : ℚ)⌋ = 4 := by
  rw [Int.floor_eq_iff]
  norm_num

lemma floor_27_half : ⌊(27 / 2 : ℚ)⌋ = 13 := by
  rw [Int.floor_eq_iff]
  norm_num

lemma pyRound_9_half : pyRound (9 / 2 : ℚ) = 4 := by
  unfold pyRound
  rw [floor_9_half]
  norm_num

lemma pyRound_27_half : pyRound (27 / 2 : ℚ) = 14 := by
  unfold pyRound
  rw [floor_27_half]
  norm_num

lemma pyRound_450 : pyRound (450 : ℚ) = 450 := by
  have h := pyRound_natCast 450
  push_cast at h
  exact h

/-- C1 counterexample: for a 30 × 1 source image the script's output is 16
pixels wide (Pillow rounds `30 * 0.45 = 13.5` up to 14), but the claimed
formula `W - floor(W * 0.45)` gives `30 - 13 = 17`. -/
theorem c1_counterexample :
    thumbWidth { width := 30, height := 1, pix := fun _ _ => 0 } = some 16 ∧
    (30 : ℕ) - (⌊(30 : ℚ) * (45 / 100)⌋).toNat = 17 ∧ (16 : ℕ) ≠ 17 := by
  refine ⟨?_, ?_, by norm_num⟩
  · rw [thumbWidth_eq]
    show some (((30 : ℤ) - pyRound (leftFloat 30)).toNat) = some 16
    rw [leftFloat_30, pyRound_27_half]
    decide
  · have h : (30 : ℚ) * (45 / 100) = 27 / 2 := by norm_num
    rw [h, floor_27_half]
    decide

/-- C1 (amended): for every source image of width `W ≥ 1` and any height `H`,
the output has height exactly `H` and width `W - round(W * 0.45)`, where the
product is the Python double product and `round` is Python's half-to-even
rounding applied by Pillow to the crop box; for some widths (e.g. `W = 30`)
this differs from `W - floor(W * 0.45)`. -/
theorem c1_output_size (W H : ℕ) (pix : ℕ → ℕ → ℕ) (hW : 0 < W) :
    (pyRound (leftFloat W)).toNat ≤ W ∧
    thumbWidth { width := W, height := H, pix := pix } =
      some (W - (pyRound (leftFloat W)).toNat) ∧
    thumbHeight { width := W, height := H, pix := pix } = some H := by
  have hlt : leftFloat W < ((W : ℤ) : ℚ) := by exact_mod_cast leftFloat_lt W hW
  have hle : pyRound (leftFloat W) ≤ (W : ℤ) := pyRound_le _ _ hlt
  have h0 : 0 ≤ pyRound (leftFloat W) := pyRound_nonneg _ (leftFloat_nonneg W)
  refine ⟨Int.toNat_le.2 hle, ?_, thumbHeight_eq _⟩
  rw [thumbWidth_eq]
  show some (((W : ℤ) - pyRound (leftFloat W)).toNat) =
    some (W - (pyRound (leftFloat W)).toNat)
  congr 1
  omega

/-- C1 witness: the amended size statement at the concrete 30 × 1 image. -/
theorem c1_output_size_witness :
    0 < 30 ∧
    ((pyRound (leftFloat 30)).toNat ≤ 30 ∧
      thumbWidth { width := 30, height := 1, pix := fun _ _ => 0 } =
        some (30 - (pyRound (leftFloat 30)).toNat) ∧
      thumbHeight { width := 30, height := 1, pix := fun _ _ => 0 } = some 1) :=
  ⟨by norm_num, c1_output_size 30 1 (fun _ _ => 0) (by norm_num)⟩

/-- C2: a 1000 × 500 source image yields a 550 × 500 output (the double
product `1000 * 0.45` is exactly 450, so rounding does not disturb this
case). -/
theorem c2_1000x500 (pix : ℕ → ℕ → ℕ) :
    thumbWidth { width := 1000, height := 500, pix := pix } = some 550 ∧
    thumbHeight { width := 1000, height := 500, pix := pix } = some 500 := by
  refine ⟨?_, thumbHeight_eq _⟩
  rw [thumbWidth_eq]
  show some (((1000 : ℤ) - pyRound (leftFloat 1000)).toNat) = some 550
  rw [leftFloat_1000, pyRound_450]
  decide

/-- C3 counterexample: for the 30 × 1 source whose pixel at `(x, y)` is `x`,
column 0 of the output holds source column 14, not source column
`floor(30 * 0.45) = 13` as the claim requires. -/
theorem c3_counterexample :
    thumbPix (imgCols 30 1) 0 0 = some 14 ∧
    ⌊(30 : ℚ) * (45 / 100)⌋ = 13 ∧ (14 : ℕ) ≠ 13 := by
  refine ⟨?_, ?_, by norm_num⟩
  · rw [thumbPix_eq]
    show some (pixAt (imgCols 30 1) (pyRound (leftFloat 30) + (0 : ℤ)) (0 : ℤ)) = some 14
    rw [leftFloat_30, pyRound_27_half]
    decide
  · have h : (30 : ℚ) * (45 / 100) = 27 / 2 := by norm_num
    rw [h, floor_27_half]

/-- C3 (amended): with `left = round(W * 0.45)` (Python double product,
half-to-even rounding) in place of `floor(W * 0.45)`: every output pixel
`(x, y)` with `x < W - left` and `y < H` equals source pixel `(left + x, y)`,
so exactly the source columns from `left` rightwards appear in the output. -/
theorem c3_pixel_content (W H : ℕ) (pix : ℕ → ℕ → ℕ) (x y : ℕ) (hW : 0 < W)
    (hx : x < W - (pyRound (leftFloat W)).toNat) (hy : y < H) :
    thumbPix { width := W, height := H, pix := pix } x y =
      some (pix ((pyRound (leftFloat W)).toNat + x) y) := by
  have hlt : leftFloat W < ((W : ℤ) : ℚ) := by exact_mod_cast leftFloat_lt W hW
  have hle : pyRound (leftFloat W) ≤ (W : ℤ) := pyRound_le _ _ hlt
  have h0 : 0 ≤ pyRound (leftFloat W) := pyRound_nonneg _ (leftFloat_nonneg W)
  rw [thumbPix_eq]
  show some (pixAt { width := W, height := H, pix := pix }
      (pyRound (leftFloat W) + (x : ℤ)) (y : ℤ)) = _
  rw [pixAt_mk]
  rw [if_pos ⟨by omega, by omega, by omega, by omega⟩]
  have ha : (pyRound (leftFloat W) + (x : ℤ)).toNat = (pyRound (leftFloat W)).toNat + x := by
    omega
  have hb : ((y : ℤ)).toNat = y := by omega
  rw [ha, hb]

/-- C3 witness: the amended pixel-correspondence at the 30 × 1 column-index
image, pixel (0, 0) of the output being source column 14. -/
theorem c3_pixel_content_witness : thumbPix (imgCols 30 1) 0 0 = some 14 := by
  have h := c3_pixel_content 30 1 (fun x _ => x) 0 0 (by norm_num)
    (by rw [leftFloat_30, pyRound_27_half]; norm_num) (by norm_num)
  rw [leftFloat_30, pyRound_27_half] at h
  simpa [imgCols] using h

/-- C4: for every image with positive width and height, the crop rectangle the
script computes is `(width * 0.45, 0, width, height)` — the first coordinate
being the Python double product — and it satisfies
`0 ≤ left < right ≤ width` and `0 ≤ top < bottom ≤ height`. -/
theorem c4_box_invariant (W H : ℕ) (hW : 0 < W) (hH : 0 < H) :
    scriptBox W H = (leftFloat W, 0, (W : ℚ), (H : ℚ)) ∧
    (0 ≤ leftFloat W ∧ leftFloat W < (W : ℚ) ∧ (W : ℚ) ≤ (W : ℚ)) ∧
    ((0 : ℚ) ≤ 0 ∧ (0 : ℚ) < (H : ℚ) ∧ (H : ℚ) ≤ (H : ℚ)) :=
  ⟨rfl, ⟨leftFloat_nonneg W, leftFloat_lt W hW, le_refl _⟩,
    ⟨le_refl 0, by exact_mod_cast hH, le_refl _⟩⟩

/-- C4 witness: the crop-rectangle invariant at a 1000 × 500 image. -/
theorem c4_box_invariant_witness :
    scriptBox 1000 500 = (leftFloat 1000, 0, (1000 : ℚ), (500 : ℚ)) ∧
    (0 ≤ leftFloat 1000 ∧ leftFloat 1000 < (1000 : ℚ) ∧ (1000 : ℚ) ≤ (1000 : ℚ)) ∧
    ((0 : ℚ) ≤ 0 ∧ (0 : ℚ) < (500 : ℚ) ∧ (500 : ℚ) ≤ (500 : ℚ)) :=
  c4_box_invariant 1000 500 (by norm_num) (by norm_num)

/-- C5: whatever happens during open, crop or save, the single
`except Exception` clause catches it: the run prints exactly one message (the
error message when the body failed, carrying the exception; the success
message otherwise), re-raises nothing, and the process exits with status 0. -/
theorem c5_catch_all (encode : Img → List ℕ) (fs : FS) :
    (runScript encode fs).exitCode = 0 ∧
    (runScript encode fs).printed.length = 1 ∧
    (∀ e, (tryBody encode fs).2 = Except.error e →
      (runScript encode fs).printed = [Msg.failure e]) ∧
    ((tryBody encode fs).2 = Except.ok () →
      (runScript encode fs).printed = [Msg.success output_path]) := by
  rcases htb : tryBody encode fs with ⟨fs', r⟩
  rcases r with e | u
  · simp [runScript, htb]
  · cases u
    simp [runScript, htb]

/-- C5 witness: the catch-all behaviour at a state with no source file. -/
theorem c5_catch_all_witness :
    (runScript encZero { src := none, dstWritable := true, dst := none }).exitCode = 0 ∧
    (runScript encZero { src := none, dstWritable := true, dst := none }).printed =
      [Msg.failure PyError.fileNotFound] :=
  ⟨(c5_catch_all encZero { src := none, dstWritable := true, dst := none }).1,
    (c5_catch_all encZero { src := none, dstWritable := true, dst := none }).2.2.1
      PyError.fileNotFound rfl⟩

/-- C6: when no decodable file sits at the source path, the run prints the
error message and leaves the destination exactly as it was: no output file is
produced. -/
theorem c6_missing_source (encode : Img → List ℕ) (fs : FS) (h : fs.src = none) :
    (runScript encode fs).printed = [Msg.failure PyError.fileNotFound] ∧
    (runScript encode fs).fs.dst = fs.dst := by
  have htb : tryBody encode fs = (fs, Except.error PyError.fileNotFound) := by
    unfold tryBody
    rw [h]
  simp [runScript, htb]

/-- C6 witness: the missing-source behaviour with an initially empty
destination: afterwards there is still no output file. -/
theorem c6_missing_source_witness :
    (runScript encZero { src := none, dstWritable := true, dst := none }).printed =
      [Msg.failure PyError.fileNotFound] ∧
    (runScript encZero { src := none, dstWritable := true, dst := none }).fs.dst = none :=
  c6_missing_source encZero { src := none, dstWritable := true, dst := none } rfl

/-- C7: no run of the script ever modifies the source file; and when the
destination is not writable, the run reports failure and leaves the whole
file system (source file included) unchanged. -/
theorem c7_source_preserved (encode : Img → List ℕ) (fs : FS) :
    (runScript encode fs).fs.src = fs.src ∧
    (fs.dstWritable = false →
      (∃ e, (runScript encode fs).printed = [Msg.failure e]) ∧
      (runScript encode fs).fs = fs) := by
  rcases hs : fs.src with _ | img
  · simp [runScript_eq, hs]
  · by_cases hw : fs.dstWritable
    · simp [runScript_eq, hs, hw]
    · have hw' : fs.dstWritable = false := by simpa using hw
      simp [runScript_eq, hs, hw']

/-- C7 witness: an unwritable destination: the run fails and the file system,
source included, is untouched. -/
theorem c7_source_preserved_witness :
    (runScript encZero
        { src := some (imgCols 30 1), dstWritable := false, dst := none }).fs.src =
      some (imgCols 30 1) ∧
    (∃ e, (runScript encZero
        { src := some (imgCols 30 1), dstWritable := false, dst := none }).printed =
      [Msg.failure e]) ∧
    (runScript encZero
        { src := some (imgCols 30 1), dstWritable := false, dst := none }).fs =
      { src := some (imgCols 30 1), dstWritable := false, dst := none } := by
  have h := c7_source_preserved encZero
    { src := some (imgCols 30 1), dstWritable := false, dst := none }
  exact ⟨h.1, (h.2 rfl).1, (h.2 rfl).2⟩

/-- C8: running the script twice with the same source is idempotent: the
second run recomputes the same cropped image from the unchanged source and
overwrites the destination with the identical bytes (the encoder is a
function, hence deterministic), so state and output of the second run equal
those of the first. -/
theorem c8_idempotent (encode : Img → List ℕ) (fs : FS) :
    (runScript encode (runScript encode fs).fs).fs = (runScript encode fs).fs ∧
    (runScript encode (runScript encode fs).fs).printed = (runScript encode fs).printed := by
  rcases hs : fs.src with _ | img
  · simp [runScript_eq, hs]
  · by_cases hw : fs.dstWritable
    · simp [runScript_eq, hs, hw]
    · have hw' : fs.dstWritable = false := by simpa using hw
      simp [runScript_eq, hs, hw']

/-- C9: every invocation prints exactly one message, and it is either the
success message naming the output path (exactly when open, crop and save all
succeeded) or the error message carrying the exception (exactly when the body
failed); never both and never neither. -/
theorem c9_single_message (encode : Img → List ℕ) (fs : FS) :
    (runScript encode fs).printed.length = 1 ∧
    (((runScript encode fs).printed = [Msg.success output_path] ∧
        (tryBody encode fs).2 = Except.ok ()) ∨
      (∃ e, (runScript encode fs).printed = [Msg.failure e] ∧
        (tryBody encode fs).2 = Except.error e)) := by
  rcases htb : tryBody encode fs with ⟨fs', r⟩
  rcases r with e | u
  · exact ⟨by simp [runScript, htb], Or.inr ⟨e, by simp [runScript, htb], by simp [htb]⟩⟩
  · cases u
    exact ⟨by simp [runScript, htb], Or.inl ⟨by simp [runScript, htb], by simp [htb]⟩⟩

/-- C10 counterexample: at width 10 the double product `10 * 0.45` is exactly
4.5, whose fractional part is one half, yet Python rounds ties to even, so the
crop uses `left = 4 = floor(10 * 0.45)` and the output width 6 does NOT differ
from `W - floor(W * 0.45)` — the claim's `for every width with fractional part
at least one half` fails. -/
theorem c10_counterexample :
    leftFloat 10 - (⌊leftFloat 10⌋ : ℚ) = 1 / 2 ∧
    thumbWidth { width := 10, height := 1, pix := fun _ _ => 0 } = some 6 ∧
    10 - (⌊leftFloat 10⌋).toNat = 6 := by
  refine ⟨?_, ?_, ?_⟩
  · rw [leftFloat_10, floor_9_half]
    norm_num
  · rw [thumbWidth_eq]
    show some (((10 : ℤ) - pyRound (leftFloat 10)).toNat) = some 6
    rw [leftFloat_10, pyRound_9_half]
    decide
  · rw [leftFloat_10, floor_9_half]
    decide

/-- C10 (amended): the left boundary is the double product `W * 0.45` passed
unfloored to `crop`, which rounds it half-to-even; the output width is
`W - round(W * 0.45)`, and this differs from `W - floor(W * 0.45)` exactly
when the fractional part of the double product exceeds one half, or equals
one half with an odd floor (ties with an even floor, e.g. `W = 10`, agree
with the floor formula). -/
theorem c10_round_vs_floor (W H : ℕ) (pix : ℕ → ℕ → ℕ) (_hW : 0 < W)
    (hfrac : 1 / 2 < leftFloat W - (⌊leftFloat W⌋ : ℚ) ∨
      (leftFloat W - (⌊leftFloat W⌋ : ℚ) = 1 / 2 ∧ ⌊leftFloat W⌋ % 2 = 1)) :
    pyRound (leftFloat W) = ⌊leftFloat W⌋ + 1 ∧
    thumbWidth { width := W, height := H, pix := pix } =
      some (((W : ℤ) - (⌊leftFloat W⌋ + 1)).toNat) ∧
    (W : ℤ) - (⌊leftFloat W⌋ + 1) ≠ (W : ℤ) - ⌊leftFloat W⌋ := by
  have hpy : pyRound (leftFloat W) = ⌊leftFloat W⌋ + 1 := by
    unfold pyRound
    rcases hfrac with h | ⟨h, hodd⟩
    · rw [if_neg (not_lt.2 h.le), if_pos h]
    · rw [if_neg (not_lt.2 h.ge), if_neg (not_lt.2 h.le), if_neg (by omega)]
  refine ⟨hpy, ?_, by omega⟩
  rw [thumbWidth_eq]
  show some (((W : ℤ) - pyRound (leftFloat W)).toNat) = _
  rw [hpy]

/-- C10 witness: the amended statement at width 30, where the double product
is exactly 13.5 and the odd floor makes the tie round up to 14. -/
theorem c10_round_vs_floor_witness :
    pyRound (leftFloat 30) = ⌊leftFloat 30⌋ + 1 ∧
    thumbWidth { width := 30, height := 1, pix := fun _ _ => 0 } =
      some (((30 : ℤ) - (⌊leftFloat 30⌋ + 1)).toNat) ∧
    (30 : ℤ) - (⌊leftFloat 30⌋ + 1) ≠ (30 : ℤ) - ⌊leftFloat 30⌋ :=
  c10_round_vs_floor 30 1 (fun _ _ => 0) (by norm_num)
    (Or.inr ⟨by rw [leftFloat_30, floor_27_half]; norm_num,
      by rw [leftFloat_30, floor_27_half]; decide⟩)
